import Mathlib

/-!
# A shallow embedding of `src/nessus2csv.py`

The embedding models the XML-to-row extraction engine of `nessus2csv.py`
over an explicit XML element tree, mirroring the semantics of the
`xml.etree.ElementTree` calls the script issues. Python strings become
`String`, `None` becomes `Option.none`, Python dict rows become ordered
association lists `List (String × String)` (a `dict` literal keeps its
insertion order, which is what `csv.DictWriter` consumes).

`html.unescape` is Python standard-library code, not code of this
repository; every definition that reaches it is parameterised over an
arbitrary `unescape : String → String` standing for it, so all theorems
hold for the real entity table. `str.strip`, `str.lower` and substring
containment are modelled over the characters Python handles for the ASCII
range the repository's field values use.
-/

/-- An XML element as `xml.etree.ElementTree` exposes it: `tag` is the raw
tag string (a namespaced tag reads `{uri}local`), `attrib` the attributes in
document order, `text` the element's text (`none` models Python `None`),
`children` the subelements in document order. -/
inductive XmlElem : Type where
  | mk (tag : String) (attrib : List (String × String)) (text : Option String)
      (children : List XmlElem)

/-- The element's tag string. -/
def XmlElem.tag : XmlElem → String
  | .mk t _ _ _ => t

/-- The element's attribute list. -/
def XmlElem.attrib : XmlElem → List (String × String)
  | .mk _ a _ _ => a

/-- The element's text, `none` for Python `None`. -/
def XmlElem.text : XmlElem → Option String
  | .mk _ _ x _ => x

/-- The element's direct subelements in document order. -/
def XmlElem.children : XmlElem → List XmlElem
  | .mk _ _ _ c => c

mutual

/-- The element and all its descendants in document (preorder) order:
the list `elem.iter()` yields. -/
def XmlElem.subtree : XmlElem → List XmlElem
  | .mk t a x cs => .mk t a x cs :: XmlElem.subtreeList cs

/-- `subtree` of every element of a list, concatenated in order. -/
def XmlElem.subtreeList : List XmlElem → List XmlElem
  | [] => []
  | c :: cs => c.subtree ++ XmlElem.subtreeList cs

end

/-- The proper descendants of an element in document order. -/
def XmlElem.descendants (e : XmlElem) : List XmlElem :=
  XmlElem.subtreeList e.children

/-- `elem.findall(".//T")`: every descendant (the element itself excluded)
whose tag is `t`, in document order. -/
def XmlElem.findallDesc (e : XmlElem) (t : String) : List XmlElem :=
  e.descendants.filter (fun c => c.tag == t)

/-- `elem.iter(T)`: every element of the subtree, the element itself
included, whose tag is `t`, in document order. -/
def XmlElem.iterTag (e : XmlElem) (t : String) : List XmlElem :=
  e.subtree.filter (fun c => c.tag == t)

/-- `elem.find(T)` for a plain tag path: the first direct child with tag
`t`, `none` when there is none. -/
def XmlElem.findChild (e : XmlElem) (t : String) : Option XmlElem :=
  e.children.find? (fun c => c.tag == t)

/-- `elem.findtext(T)`: text of the first direct child with tag `t`; the
empty string when that child's text is `None`; `none` when there is no such
child (`findtext` then returns its default, `None`). -/
def XmlElem.findtext (e : XmlElem) (t : String) : Option String :=
  (e.findChild t).map (fun c => c.text.getD "")

/-- `elem.find(".//T")`: the first descendant with tag `t` in document
order, `none` when there is none. -/
def XmlElem.findDesc (e : XmlElem) (t : String) : Option XmlElem :=
  e.descendants.find? (fun c => c.tag == t)

/-- `elem.get(name)`: attribute lookup, `none` when the attribute is
absent. -/
def XmlElem.get (e : XmlElem) (name : String) : Option String :=
  (e.attrib.find? (fun p => p.1 == name)).map (fun p => p.2)

/-- The element's text with `None` read as the empty string, so that
Python's truthiness test `elem.text` is the test `textOr ≠ ""`. -/
def XmlElem.textOr (e : XmlElem) : String :=
  e.text.getD ""

/-- Python `a or b` for an optional string `a`: `b` when `a` is `None` or
empty (falsy), `a`'s value otherwise. -/
def pyOr (a : Option String) (b : String) : String :=
  match a with
  | some s => if s = "" then b else s
  | none => b

/-- The characters Python's `str.strip()` removes, in the ASCII range. -/
def pyWhitespace (c : Char) : Bool :=
  c == ' ' || c == '\t' || c == '\n' || c == '\r' || c == '\x0b' || c == '\x0c'

/-- Python `s.strip()`: leading and trailing whitespace removed. -/
def pyStrip (s : String) : String :=
  ⟨((s.toList.dropWhile pyWhitespace).reverse.dropWhile pyWhitespace).reverse⟩

/-- Python `s.lower()` over the ASCII range. -/
def pyLower (s : String) : String :=
  ⟨s.toList.map Char.toLower⟩

/-- `listHasRun sub l`: some contiguous run of `l` is exactly `sub`. -/
def listHasRun (sub : List Char) : List Char → Bool
  | [] => sub.isEmpty
  | c :: cs => (sub.zipWith (fun a b => a == b) (c :: cs)).all id
        && sub.length ≤ (c :: cs).length || listHasRun sub cs

/-- Python `sub in s` for strings: substring containment. -/
def strContains (s sub : String) : Bool :=
  listHasRun sub.toList s.toList

/-- Lines 27–28: a namespaced tag reads `{uri}local`; the code takes the
text between the leading brace and the first closing brace
(`elem.tag[1:].partition` on the closing brace). `none` for a tag with no leading brace. -/
def uriOfTag (tag : String) : Option String :=
  if tag.startsWith "\x7b" then some (((tag.drop 1).splitOn "\x7d").headD "") else none

/-- Line 32: the test `"nessus.org/cm" in uri or "compliance" in uri`. -/
def cmMarker (uri : String) : Bool :=
  strContains uri "nessus.org/cm" || strContains uri "compliance"

/-- The URIs of namespaced tags carrying the compliance marker, in
`root.iter()` order (lines 26–33 visit every element of the tree). -/
def markerUris (root : XmlElem) : List String :=
  root.subtree.filterMap (fun e =>
    match uriOfTag e.tag with
    | some uri => if cmMarker uri then some uri else none
    | none => none)

/-- Lines 25–36: the resolved `cm` namespace. The loop assigns
`nsmap["cm"] = uri` for every marker URI it meets, so the last one wins;
`nsmap.setdefault` supplies the canonical default when none was met. -/
def nsCm (root : XmlElem) : String :=
  (markerUris root).getLastD "http://www.nessus.org/cm"

/-- Lines 38–44 and 62: `severity_map.get(code, code if code else
"Unknown")` — the fixed five-entry table, the code itself as label outside
it, `"Unknown"` for the empty code. -/
def severityLabel (severity_code : String) : String :=
  if severity_code = "0" then "Info"
  else if severity_code = "1" then "Low"
  else if severity_code = "2" then "Medium"
  else if severity_code = "3" then "High"
  else if severity_code = "4" then "Critical"
  else if severity_code = "" then "Unknown"
  else severity_code

/-- Lines 48–54: the host address — the `name` attribute when truthy, else
the text of the first descendant `tag` element whose `name` attribute is
`"host-ip"` and whose text is truthy (the loop skips matches with falsy
text), else the empty string. -/
def resolveHostIp (host : XmlElem) : String :=
  let ip := pyOr (host.get "name") ""
  if ip = "" then
    match (host.findallDesc "tag").find? (fun t =>
        t.get "name" == some "host-ip" && !(t.textOr == "")) with
    | some t => t.textOr
    | none => ""
  else ip

/-- Lines 70–80, the closure `cm_text`: tier 1 a namespace-qualified direct
child, tier 2 an unqualified direct child, tier 3 a namespace-qualified
descendant with truthy text; a truthy result is stripped then entity
decoded, anything else gives the empty string. -/
def cm_text (unescape : String → String) (cm : String) (item : XmlElem)
    (tagname : String) : String :=
  let text := item.findtext ("\x7b" ++ cm ++ "\x7d" ++ tagname)
  let text := match text with
    | some s => some s
    | none => item.findtext tagname
  let text := match text with
    | some s => some s
    | none =>
      match item.findDesc ("\x7b" ++ cm ++ "\x7d" ++ tagname) with
      | some e => if e.textOr = "" then none else some e.textOr
      | none => none
  match text with
  | some s => if s = "" then "" else unescape (pyStrip s)
  | none => ""

/-- Line 82: `(item.findtext("compliance") or "").strip().lower() ==
"true"`, rendered as the string the row stores (line 112). -/
def complianceFlag (item : XmlElem) : String :=
  if pyLower (pyStrip (pyOr (item.findtext "compliance") "")) = "true"
  then "true" else "false"

/-- Lines 237–251: the 28 output field names in their fixed order (the
row literals at lines 102–131 and 144–173 use the same order). -/
def fieldnames : List String :=
  ["IP Address", "Port", "Protocol", "Service",
   "Plugin ID", "Plugin Name", "Plugin Family",
   "Severity", "Risk Factor",
   "Is Compliance Item", "Compliance Result",
   "Compliance Check Name", "Compliance Check ID",
   "Compliance Policy Value", "Compliance Actual Value",
   "Compliance Solution", "Compliance Info",
   "Compliance Reference", "Compliance Benchmark Name",
   "Compliance Benchmark Version", "Compliance Benchmark Profile",
   "Compliance Full ID", "Compliance Control ID",
   "Compliance See Also", "Compliance Source",
   "Compliance Audit File", "Compliance Functional ID",
   "Compliance Informational ID"]

/-- Lines 56–132: one primary-path row for one host address and one report
item. -/
def assembleRow (unescape : String → String) (cm : String) (ip : String)
    (item : XmlElem) : List (String × String) :=
  [("IP Address", ip),
   ("Port", pyOr (item.get "port") ""),
   ("Protocol", pyOr (item.get "protocol") ""),
   ("Service", pyOr (item.get "svc_name") ""),
   ("Plugin ID", pyOr (item.get "pluginID") ""),
   ("Plugin Name", pyOr (item.get "pluginName") (pyOr (item.findtext "plugin_name") "")),
   ("Plugin Family", pyOr (item.get "pluginFamily") ""),
   ("Severity", severityLabel (pyOr (item.get "severity") "")),
   ("Risk Factor", pyStrip (pyOr (item.findtext "risk_factor") "")),
   ("Is Compliance Item", complianceFlag item),
   ("Compliance Result", cm_text unescape cm item "compliance-result"),
   ("Compliance Check Name", cm_text unescape cm item "compliance-check-name"),
   ("Compliance Check ID", cm_text unescape cm item "compliance-check-id"),
   ("Compliance Policy Value", cm_text unescape cm item "compliance-policy-value"),
   ("Compliance Actual Value", cm_text unescape cm item "compliance-actual-value"),
   ("Compliance Solution", cm_text unescape cm item "compliance-solution"),
   ("Compliance Info", cm_text unescape cm item "compliance-info"),
   ("Compliance Reference", cm_text unescape cm item "compliance-reference"),
   ("Compliance Benchmark Name", cm_text unescape cm item "compliance-benchmark-name"),
   ("Compliance Benchmark Version", cm_text unescape cm item "compliance-benchmark-version"),
   ("Compliance Benchmark Profile", cm_text unescape cm item "compliance-benchmark-profile"),
   ("Compliance Full ID", cm_text unescape cm item "compliance-full-id"),
   ("Compliance Control ID", cm_text unescape cm item "compliance-control-id"),
   ("Compliance See Also", cm_text unescape cm item "compliance-see-also"),
   ("Compliance Source", cm_text unescape cm item "compliance-source"),
   ("Compliance Audit File", cm_text unescape cm item "compliance-audit-file"),
   ("Compliance Functional ID", cm_text unescape cm item "compliance-functional-id"),
   ("Compliance Informational ID", cm_text unescape cm item "compliance-informational-id")]

/-- Lines 46–132: the primary host→item traversal —
`root.findall(".//ReportHost")`, per host the resolved address, per
`host.findall(".//ReportItem")` one assembled row. -/
def primaryRows (unescape : String → String) (root : XmlElem) :
    List (List (String × String)) :=
  (root.findallDesc "ReportHost").flatMap (fun host =>
    (host.findallDesc "ReportItem").map (fun item =>
      assembleRow unescape (nsCm root) (resolveHostIp host) item))

/-- Lines 144–173: one flat-fallback row — base fields from the item, the
compliance flag hard-coded `"false"` and all compliance columns empty. -/
def fallbackRow (ip : String) (it : XmlElem) : List (String × String) :=
  [("IP Address", ip),
   ("Port", pyOr (it.get "port") ""),
   ("Protocol", pyOr (it.get "protocol") ""),
   ("Service", pyOr (it.get "svc_name") ""),
   ("Plugin ID", pyOr (it.get "pluginID") ""),
   ("Plugin Name", pyOr (it.get "pluginName") (pyOr (it.findtext "plugin_name") "")),
   ("Plugin Family", pyOr (it.get "pluginFamily") ""),
   ("Severity", severityLabel (pyOr (it.get "severity") "")),
   ("Risk Factor", pyStrip (pyOr (it.findtext "risk_factor") "")),
   ("Is Compliance Item", "false"),
   ("Compliance Result", ""),
   ("Compliance Check Name", ""),
   ("Compliance Check ID", ""),
   ("Compliance Policy Value", ""),
   ("Compliance Actual Value", ""),
   ("Compliance Solution", ""),
   ("Compliance Info", ""),
   ("Compliance Reference", ""),
   ("Compliance Benchmark Name", ""),
   ("Compliance Benchmark Version", ""),
   ("Compliance Benchmark Profile", ""),
   ("Compliance Full ID", ""),
   ("Compliance Control ID", ""),
   ("Compliance See Also", ""),
   ("Compliance Source", ""),
   ("Compliance Audit File", ""),
   ("Compliance Functional ID", ""),
   ("Compliance Informational ID", "")]

/-- Lines 136–143: the flat-fallback host addresses, `h.get("name") or ""`
over `root.iter("ReportHost")`. -/
def fallbackIps (root : XmlElem) : List String :=
  (root.iterTag "ReportHost").map (fun h => pyOr (h.get "name") "")

/-- Lines 134–173: the flat fallback — every `ReportItem` of
`root.iter("ReportItem")`, the `idx`-th paired with `ips[idx]` when that
index exists and with `""` otherwise. -/
def fallbackRows (root : XmlElem) : List (List (String × String)) :=
  (root.iterTag "ReportItem").enum.map (fun p =>
    fallbackRow ((fallbackIps root).getD p.1 "") p.2)

/-- Lines 46–175 on a parsed root: the primary rows, or the flat fallback
when the primary pass produced none (line 135, `if not rows`). -/
def parseRows (unescape : String → String) (root : XmlElem) :
    List (List (String × String)) :=
  let rows := primaryRows unescape root
  if rows.isEmpty then fallbackRows root else rows

/-- Lines 10–21 and 175: `parse_nessus_file` — a file whose XML parse
raised (`none`) gets a stderr diagnostic and contributes the empty row
list; otherwise the rows extracted from the parsed root. -/
def parse_nessus_file (unescape : String → String) (doc : Option XmlElem) :
    List (List (String × String)) :=
  match doc with
  | none => []
  | some root => parseRows unescape root

/-- Lines 253–261: the aggregate row stream, each file's rows appended in
file-submission order. -/
def aggregateRows (unescape : String → String)
    (docs : List (Option XmlElem)) : List (List (String × String)) :=
  docs.flatMap (parse_nessus_file unescape)

/-- Line 263: the file count the final report prints — `len(files)`,
independent of any per-file parse outcome. -/
def reportedFileCount (docs : List (Option XmlElem)) : Nat :=
  docs.length

/-! ## Helper lemmas -/

theorem getLastD_mem_of_ne_nil (l : List String) (d : String) (h : l ≠ []) :
    l.getLastD d ∈ l := by
  induction l with
  | nil => exact absurd rfl h
  | cons a as ih =>
    cases as with
    | nil => simp [List.getLastD]
    | cons b bs =>
      have := ih (by simp)
      simp only [List.getLastD] at this ⊢
      rw [List.getLast_cons_cons]
      exact List.mem_cons_of_mem a this

theorem complianceFlag_eq_true_iff (item : XmlElem) :
    complianceFlag item = "true" ↔
      pyLower (pyStrip (pyOr (item.findtext "compliance") "")) = "true" := by
  unfold complianceFlag
  split <;> simp_all

/-! ## C5 — severity mapping -/

/-- C5: the severity mapping is total: the five table codes map to their
labels, any other non-empty code is returned unchanged as its own label,
and the empty (absent) code maps to `"Unknown"`; no input errors (the
model is a total function). -/
theorem C5_severity_map_total (c : String)
    (hmem : c ∉ (["0", "1", "2", "3", "4"] : List String)) (hne : c ≠ "") :
    severityLabel c = c ∧ severityLabel "0" = "Info" ∧ severityLabel "1" = "Low" ∧
    severityLabel "2" = "Medium" ∧ severityLabel "3" = "High" ∧
    severityLabel "4" = "Critical" ∧ severityLabel "" = "Unknown" := by
  refine ⟨?_, rfl, rfl, rfl, rfl, rfl, rfl⟩
  simp only [List.mem_cons, List.not_mem_nil, or_false] at hmem
  push_neg at hmem
  obtain ⟨h0, h1, h2, h3, h4⟩ := hmem
  simp [severityLabel, h0, h1, h2, h3, h4, hne]

/-- C5 witness at the unmapped code `"9"`. -/
theorem C5_severity_map_total_witness :
    (("9" : String) ∉ (["0", "1", "2", "3", "4"] : List String)) ∧
      (("9" : String) ≠ "") ∧
      (severityLabel "9" = "9" ∧ severityLabel "0" = "Info" ∧
        severityLabel "1" = "Low" ∧ severityLabel "2" = "Medium" ∧
        severityLabel "3" = "High" ∧ severityLabel "4" = "Critical" ∧
        severityLabel "" = "Unknown") :=
  ⟨by decide, by decide, C5_severity_map_total "9" (by decide) (by decide)⟩

/-! ## C6 — the compliance flag -/

/-- A concrete report item whose `compliance` child text is `" true "`. -/
def c6Item : XmlElem :=
  .mk "ReportItem" [] none [.mk "compliance" [] (some " true ") []]

/-- C6 counterexample: the text `" true "` does not equal `"true"`
case-insensitively (its lower-casing keeps the surrounding blanks), yet the
code emits `Is Compliance Item = "true"` for it, because line 82 strips the
text before comparing. -/
theorem C6_flag_counterexample :
    complianceFlag c6Item = "true" ∧
      c6Item.findtext "compliance" = some " true " ∧
      pyLower " true " ≠ "true" :=
  ⟨by decide, by decide, by decide⟩

/-- C6 (amended): the `Is Compliance Item` field is `"true"` exactly when
the item's `compliance` child exists and its text, after trimming
surrounding whitespace, matches `"true"` case-insensitively; any other
text, and absence of the child, yield `"false"`. -/
theorem C6_compliance_flag (item : XmlElem) :
    (complianceFlag item = "true" ↔
      ∃ s, item.findtext "compliance" = some s ∧ pyLower (pyStrip s) = "true") ∧
    (item.findtext "compliance" = none → complianceFlag item = "false") := by
  have hbase : ¬(pyLower (pyStrip "") = "true") := by decide
  constructor
  · rw [complianceFlag_eq_true_iff]
    cases hf : item.findtext "compliance" with
    | none =>
      simp only [pyOr]
      constructor
      · intro h; exact absurd h hbase
      · rintro ⟨s, hs, _⟩; cases hs
    | some s =>
      by_cases hs0 : s = ""
      · subst hs0
        simp only [pyOr, if_pos rfl]
        constructor
        · intro h; exact absurd h hbase
        · rintro ⟨t, ht, htrue⟩
          obtain rfl : ("" : String) = t := Option.some.injEq .. ▸ ht
          exact absurd htrue hbase
      · simp only [pyOr, if_neg hs0]
        constructor
        · intro h; exact ⟨s, rfl, h⟩
        · rintro ⟨t, ht, htrue⟩
          obtain rfl : s = t := Option.some.injEq .. ▸ ht
          exact htrue
  · intro hf
    unfold complianceFlag
    rw [hf]
    simp only [pyOr]
    rw [if_neg hbase]

/-! ## C9 — host identity resolution -/

/-- The text of the first descendant `tag` element whose `name` attribute
equals `"host-ip"`, as claim C9 words the fallback. -/
def claimFirstHostIpText (host : XmlElem) : String :=
  match (host.findallDesc "tag").find? (fun t => t.get "name" == some "host-ip") with
  | some t => t.textOr
  | none => ""

/-- Claim C9's resolution rule taken at its word: the `name` attribute when
present and non-empty; otherwise the text of the first descendant `tag`
element whose `name` attribute equals `"host-ip"` — with no requirement on
that text; otherwise the empty string. -/
def claimHostIp (host : XmlElem) : String :=
  match host.get "name" with
  | some s => if s = "" then claimFirstHostIpText host else s
  | none => claimFirstHostIpText host

/-- The amended fallback: first `host-ip` property tag with non-empty text. -/
def amendedHostIpFallback (host : XmlElem) : String :=
  match (host.findallDesc "tag").find? (fun t =>
      t.get "name" == some "host-ip" && !(t.textOr == "")) with
  | some t => t.textOr
  | none => ""

/-- The amended claim C9: the fallback is the text of the first descendant
`tag` element whose `name` attribute equals `"host-ip"` and whose text is
non-empty. -/
def amendedHostIp (host : XmlElem) : String :=
  match host.get "name" with
  | some s => if s = "" then amendedHostIpFallback host else s
  | none => amendedHostIpFallback host

/-- A host with no `name` attribute whose first `host-ip` property tag has
no text and whose second carries `"10.0.0.7"`. -/
def c9Host : XmlElem :=
  .mk "ReportHost" [] none
    [.mk "HostProperties" [] none
      [.mk "tag" [("name", "host-ip")] none [],
       .mk "tag" [("name", "host-ip")] (some "10.0.0.7") []]]

/-- C9 counterexample: the code skips the first (text-less) `host-ip` tag
and resolves `"10.0.0.7"` from the second, while the claim's rule — text of
the first `host-ip` tag — yields the empty string. -/
theorem C9_host_ip_counterexample :
    resolveHostIp c9Host = "10.0.0.7" ∧ claimHostIp c9Host = "" ∧
      resolveHostIp c9Host ≠ claimHostIp c9Host :=
  ⟨by decide, by decide, by decide⟩

/-- C9 (amended): the resolved address is the `name` attribute when present
and non-empty; otherwise the text of the first descendant `tag` element
whose `name` attribute equals `"host-ip"` and whose text is non-empty; if
neither yields a value, the empty string — and no input errors (the model
is a total function). -/
theorem C9_host_ip_resolution (host : XmlElem) :
    resolveHostIp host = amendedHostIp host := by
  unfold resolveHostIp amendedHostIp pyOr
  cases hn : host.get "name" with
  | none => simp [amendedHostIpFallback]
  | some s =>
    by_cases hs : s = ""
    · subst hs; simp [amendedHostIpFallback]
    · simp [hs]

/-! ## C3 — the three-tier field lookup -/

/-- C3: field extraction tries exactly three lookups in order and the first
success wins: (1) the namespace-qualified direct child, (2) the unqualified
direct child, (3) a namespace-qualified tag anywhere in the descendant
subtree (a hit there needs non-empty text); a found text is
whitespace-trimmed and entity-decoded (`unescape` stands for
`html.unescape`), an empty find gives the empty string, and a total miss
gives the empty string. -/
theorem C3_three_tier_lookup (unescape : String → String) (cm : String)
    (item : XmlElem) (tagname : String) :
    (∀ s, item.findtext ("\x7b" ++ cm ++ "\x7d" ++ tagname) = some s →
      cm_text unescape cm item tagname =
        if s = "" then "" else unescape (pyStrip s)) ∧
    (item.findtext ("\x7b" ++ cm ++ "\x7d" ++ tagname) = none →
      ∀ s, item.findtext tagname = some s →
        cm_text unescape cm item tagname =
          if s = "" then "" else unescape (pyStrip s)) ∧
    (item.findtext ("\x7b" ++ cm ++ "\x7d" ++ tagname) = none →
      item.findtext tagname = none →
      (∀ e, item.findDesc ("\x7b" ++ cm ++ "\x7d" ++ tagname) = some e →
        cm_text unescape cm item tagname =
          if e.textOr = "" then "" else unescape (pyStrip e.textOr)) ∧
      (item.findDesc ("\x7b" ++ cm ++ "\x7d" ++ tagname) = none →
        cm_text unescape cm item tagname = "")) := by
  refine ⟨?_, ?_, ?_⟩
  · intro s h1
    unfold cm_text
    rw [h1]
  · intro h1 s h2
    unfold cm_text
    rw [h1, h2]
  · intro h1 h2
    constructor
    · intro e h3
      unfold cm_text
      rw [h1, h2, h3]
      by_cases he : e.textOr = ""
      · simp [he]
      · simp [he]
    · intro h3
      unfold cm_text
      rw [h1, h2, h3]

/-! ## C10 — an empty tier-1 hit still wins -/

/-- C10: when the namespace-qualified direct child exists, its mere
existence wins tier 1 even with empty or whitespace-only text: the
extractor returns the empty string whatever else the item holds, so tiers 2
and 3 are never consulted (the hypothesis `unescape "" = ""` holds of
Python's `html.unescape`, which returns a string with no `&` unchanged). -/
theorem C10_empty_tier1_wins (unescape : String → String) (cm : String)
    (item : XmlElem) (tagname : String) (s : String)
    (hu : unescape "" = "")
    (h1 : item.findtext ("\x7b" ++ cm ++ "\x7d" ++ tagname) = some s)
    (hws : pyStrip s = "") :
    cm_text unescape cm item tagname = "" := by
  unfold cm_text
  rw [h1]
  show (if s = "" then "" else unescape (pyStrip s)) = ""
  by_cases hs : s = ""
  · rw [if_pos hs]
  · rw [if_neg hs, hws, hu]

/-- C10 witness: an item whose qualified `compliance-result` child has
whitespace-only text while an unqualified child holds `"PASSED"` and a
nested qualified tag holds `"FAILED"`; the extractor still returns `""`. -/
def c10Item : XmlElem :=
  .mk "ReportItem" [] none
    [.mk "\x7bhttp://www.nessus.org/cm\x7dcompliance-result" [] (some "  ") [],
     .mk "compliance-result" [] (some "PASSED") [],
     .mk "wrapper" [] none
       [.mk "\x7bhttp://www.nessus.org/cm\x7dcompliance-result" [] (some "FAILED") []]]

theorem C10_empty_tier1_wins_witness :
    (id ("" : String) = "") ∧
      (c10Item.findtext ("\x7b" ++ "http://www.nessus.org/cm" ++ "\x7d" ++ "compliance-result") =
        some "  ") ∧
      (pyStrip "  " = "") ∧
      cm_text id "http://www.nessus.org/cm" c10Item "compliance-result" = "" :=
  ⟨rfl, by decide, by decide,
    C10_empty_tier1_wins id "http://www.nessus.org/cm" c10Item "compliance-result" "  "
      rfl (by decide) (by decide)⟩

/-! ## C4 — per-file failure isolation and aggregation order -/

/-- C4: a file whose XML fails to parse contributes exactly zero rows and
aborts nothing (the model of `parse_nessus_file` is total; the failure is a
stderr diagnostic only); the aggregate stream is the concatenation of each
file's rows in file-submission order; and the reported file count is the
number of input files whatever each parse outcome was. -/
theorem C4_parse_failure_isolation (unescape : String → String)
    (docs₁ docs₂ : List (Option XmlElem)) :
    parse_nessus_file unescape none = [] ∧
    aggregateRows unescape (docs₁ ++ docs₂) =
      aggregateRows unescape docs₁ ++ aggregateRows unescape docs₂ ∧
    aggregateRows unescape (docs₁ ++ none :: docs₂) =
      aggregateRows unescape docs₁ ++ aggregateRows unescape docs₂ ∧
    reportedFileCount (docs₁ ++ none :: docs₂) =
      docs₁.length + 1 + docs₂.length ∧
    reportedFileCount (docs₁ ++ docs₂) = docs₁.length + docs₂.length := by
  refine ⟨rfl, List.flatMap_append .., ?_, ?_, by simp [reportedFileCount]⟩
  · simp [aggregateRows, List.flatMap_append, parse_nessus_file]
  · simp only [reportedFileCount, List.length_append, List.length_cons]
    omega

/-! ## C8 — namespace resolution -/

/-- C8: namespace resolution traverses every element; the adopted URI is
the last marker URI met (one that contains `"nessus.org/cm"` or
`"compliance"`), every entry of `markerUris` really is the URI of a
namespaced tag of the document and carries the marker, and when no tag of
the document carries a marker URI the canonical default
`"http://www.nessus.org/cm"` is used. -/
theorem C8_namespace_resolution (root : XmlElem) :
    nsCm root = (markerUris root).getLastD "http://www.nessus.org/cm" ∧
    ((∀ e ∈ root.subtree, ∀ uri, uriOfTag e.tag = some uri → cmMarker uri = false) →
      nsCm root = "http://www.nessus.org/cm") ∧
    (markerUris root ≠ [] →
      nsCm root ∈ markerUris root ∧ cmMarker (nsCm root) = true) ∧
    (∀ uri ∈ markerUris root,
      (∃ e ∈ root.subtree, uriOfTag e.tag = some uri) ∧ cmMarker uri = true) := by
  have hmem : ∀ uri ∈ markerUris root,
      (∃ e ∈ root.subtree, uriOfTag e.tag = some uri) ∧ cmMarker uri = true := by
    intro uri hu
    obtain ⟨e, he, hval⟩ := List.mem_filterMap.mp hu
    cases hto : uriOfTag e.tag with
    | none => rw [hto] at hval; cases hval
    | some u =>
      rw [hto] at hval
      dsimp only at hval
      by_cases hm : cmMarker u = true
      · rw [if_pos hm] at hval
        obtain rfl : u = uri := Option.some.injEq .. ▸ hval
        exact ⟨⟨e, he, hto⟩, hm⟩
      · rw [if_neg hm] at hval; cases hval
  refine ⟨rfl, ?_, ?_, hmem⟩
  · intro hnone
    have hnil : markerUris root = [] := by
      refine List.filterMap_eq_nil_iff.mpr (fun e he => ?_)
      cases hto : uriOfTag e.tag with
      | none => rfl
      | some u =>
        dsimp only
        have hm : cmMarker u = false := hnone e he u hto
        rw [hm]
        rfl
    unfold nsCm
    rw [hnil]
    rfl
  · intro hne
    have h1 : nsCm root ∈ markerUris root := getLastD_mem_of_ne_nil _ _ hne
    exact ⟨h1, (hmem _ h1).2⟩

/-! ## C7 — the flat fallback -/

/-- The 18 compliance column names (the output fields past the base nine
and the compliance flag). -/
def complianceFieldnames : List String :=
  fieldnames.drop 10

/-- C7: the flat fallback is taken exactly when the primary traversal
yields zero rows; it emits one row per `ReportItem` anywhere in the
document (`root.iter`), pairing the `i`-th item with the `i`-th
`ReportHost` name attribute and the empty address once hosts are
exhausted; every fallback row's compliance flag is `"false"` and all 18
compliance columns are empty, only the base fields being populated from
the item. -/
theorem C7_flat_fallback (unescape : String → String) (root : XmlElem) :
    (primaryRows unescape root ≠ [] →
      parseRows unescape root = primaryRows unescape root) ∧
    (primaryRows unescape root = [] →
      parseRows unescape root = fallbackRows root) ∧
    (fallbackRows root).length = (root.iterTag "ReportItem").length ∧
    (∀ i : Nat, (fallbackRows root)[i]? =
      ((root.iterTag "ReportItem")[i]?).map (fun it =>
        fallbackRow ((fallbackIps root).getD i "") it)) ∧
    (∀ i : Nat, (root.iterTag "ReportHost").length ≤ i →
      (fallbackIps root).getD i "" = "") ∧
    (∀ row ∈ fallbackRows root,
      row.lookup "Is Compliance Item" = some "false" ∧
      ∀ k ∈ complianceFieldnames, row.lookup k = some "") := by
  refine ⟨?_, ?_, ?_, ?_, ?_, ?_⟩
  · intro h
    unfold parseRows
    rw [if_neg (by simpa using h)]
  · intro h
    unfold parseRows
    rw [if_pos (by simpa using h)]
  · simp [fallbackRows]
  · intro i
    simp only [fallbackRows, List.getElem?_map, List.getElem?_enum, Option.map_map]
    cases (root.iterTag "ReportItem")[i]? with
    | none => rfl
    | some it => rfl
  · intro i hi
    apply List.getD_eq_default
    simpa [fallbackIps] using hi
  · intro row hrow
    obtain ⟨p, _, rfl⟩ := List.mem_map.mp hrow
    refine ⟨rfl, ?_⟩
    intro k hk
    fin_cases hk <;> rfl

/-! ## C2 — fixed row shape -/

theorem assembleRow_keys (unescape : String → String) (cm ip : String)
    (item : XmlElem) :
    (assembleRow unescape cm ip item).map Prod.fst = fieldnames := rfl

theorem fallbackRow_keys (ip : String) (it : XmlElem) :
    (fallbackRow ip it).map Prod.fst = fieldnames := rfl

/-- C2: every row either path emits — across any batch, parse failures
included — is an association list carrying exactly the 28 field names of
`fieldnames` in their fixed order (hence 28 entries). Values are total
`String`s by type, absent data having been defaulted to `""` at
construction, never a dropped key and never a `None`. -/
theorem C2_row_shape (unescape : String → String) (docs : List (Option XmlElem))
    (row : List (String × String)) (hrow : row ∈ aggregateRows unescape docs) :
    row.map Prod.fst = fieldnames ∧ row.length = 28 := by
  have hkeys : row.map Prod.fst = fieldnames := by
    obtain ⟨doc, _, hmem⟩ := List.mem_flatMap.mp hrow
    cases doc with
    | none => cases hmem
    | some root =>
      simp only [parse_nessus_file, parseRows] at hmem
      by_cases hp : (primaryRows unescape root).isEmpty = true
      · rw [if_pos hp] at hmem
        unfold fallbackRows at hmem
        obtain ⟨p, _, rfl⟩ := List.mem_map.mp hmem
        exact fallbackRow_keys _ _
      · rw [if_neg hp] at hmem
        unfold primaryRows at hmem
        obtain ⟨host, _, hmem2⟩ := List.mem_flatMap.mp hmem
        obtain ⟨item, _, rfl⟩ := List.mem_map.mp hmem2
        exact assembleRow_keys _ _ _ _
  refine ⟨hkeys, ?_⟩
  have hlen := congrArg List.length hkeys
  rw [List.length_map] at hlen
  exact hlen.trans rfl

/-- C2 witness input: a failing file followed by a document whose lone
`ReportItem` floats outside any host, driving the flat fallback. -/
def c2Docs : List (Option XmlElem) :=
  [none, some (.mk "Doc" [] none [.mk "ReportItem" [] none []])]

/-- The one row `c2Docs` produces. -/
def c2Row : List (String × String) :=
  fallbackRow "" (.mk "ReportItem" [] none [])

theorem C2_row_shape_witness :
    c2Row ∈ aggregateRows id c2Docs ∧
      (c2Row.map Prod.fst = fieldnames ∧ c2Row.length = 28) :=
  ⟨by decide, C2_row_shape id c2Docs c2Row (by decide)⟩

/-! ## C1 — the primary traversal emits one row per nested item -/

mutual

/-- The report items nested under some `ReportHost`, in document traversal
order: at a `ReportHost`, every `ReportItem` of its subtree; elsewhere the
children's contributions in document order. -/
def itemsUnderHosts : XmlElem → List XmlElem
  | .mk t _ _ cs =>
    if t == "ReportHost"
    then (XmlElem.subtreeList cs).filter (fun c => c.tag == "ReportItem")
    else itemsUnderHostsList cs

/-- `itemsUnderHosts` over a list of elements, concatenated in order. -/
def itemsUnderHostsList : List XmlElem → List XmlElem
  | [] => []
  | c :: cs => itemsUnderHosts c ++ itemsUnderHostsList cs

end

/-- The (host address, item) pairs the primary traversal processes, in
processing order. -/
def codePairs (root : XmlElem) : List (String × XmlElem) :=
  (root.findallDesc "ReportHost").flatMap (fun h =>
    (h.findallDesc "ReportItem").map (fun it => (resolveHostIp h, it)))

/-- The items the primary traversal visits below a list of elements: every
`ReportHost` of the forest's preorder, its `ReportItem` descendants. -/
def codeItemsList (l : List XmlElem) : List XmlElem :=
  ((XmlElem.subtreeList l).filter (fun h => h.tag == "ReportHost")).flatMap
    (fun h => h.descendants.filter (fun c => c.tag == "ReportItem"))

/-- No `ReportHost` sits strictly below this element. -/
def noHostInside (e : XmlElem) : Bool :=
  e.descendants.all (fun c => !(c.tag == "ReportHost"))

/-- Well-formedness of the dialect: no `ReportHost` of the tree has a
`ReportHost` descendant (hosts do not nest). -/
def hostsNotNested (root : XmlElem) : Bool :=
  root.subtree.all (fun h => !(h.tag == "ReportHost") || noHostInside h)

/-- `hostsNotNested` over a forest. -/
def hostsOkList (l : List XmlElem) : Bool :=
  (XmlElem.subtreeList l).all (fun h => !(h.tag == "ReportHost") || noHostInside h)

theorem codeItemsList_eq_itemsUnderHostsList (n : Nat) :
    ∀ l : List XmlElem, sizeOf l ≤ n → hostsOkList l = true →
      codeItemsList l = itemsUnderHostsList l := by
  induction n with
  | zero =>
    intro l hl _
    exact absurd hl (by cases l <;> simp)
  | succ n ih =>
    intro l hl hok
    cases l with
    | nil => rfl
    | cons c cs =>
      cases c with
      | mk t a x cs2 =>
        simp only [List.cons.sizeOf_spec, XmlElem.mk.sizeOf_spec] at hl
        have hszc : sizeOf cs2 ≤ n := by omega
        have hszcs : sizeOf cs ≤ n := by omega
        simp only [hostsOkList, XmlElem.subtreeList, XmlElem.subtree,
          List.all_append, List.all_cons, Bool.and_eq_true] at hok
        obtain ⟨⟨hokc, hok3⟩, hok2⟩ := hok
        have ihcs : codeItemsList cs = itemsUnderHostsList cs :=
          ih cs hszcs (by exact hok2)
        have ihcs2 : codeItemsList cs2 = itemsUnderHostsList cs2 :=
          ih cs2 hszc (by exact hok3)
        have htag : (XmlElem.mk t a x cs2).tag = t := rfl
        simp only [codeItemsList, XmlElem.descendants] at ihcs ihcs2
        simp only [codeItemsList, itemsUnderHostsList, itemsUnderHosts,
          XmlElem.subtreeList, XmlElem.subtree, List.filter_append,
          List.filter_cons, List.flatMap_append, XmlElem.descendants, htag]
        by_cases ht : (t == "ReportHost") = true
        · have hnh : noHostInside (XmlElem.mk t a x cs2) = true := by
            rw [htag, ht] at hokc
            simpa using hokc
          have hfil : (XmlElem.subtreeList cs2).filter
              (fun h => h.tag == "ReportHost") = [] := by
            rw [List.filter_eq_nil_iff]
            intro b hb
            have hball := List.all_eq_true.mp hnh b hb
            simp only [Bool.not_eq_true'] at hball
            simp [hball]
          rw [if_pos ht, if_pos ht, hfil]
          have hch : (XmlElem.mk t a x cs2).children = cs2 := rfl
          simp only [List.flatMap_cons, List.flatMap_nil, List.append_nil, hch]
          rw [ihcs]
        · rw [if_neg ht, if_neg ht]
          rw [ihcs, ihcs2]

theorem itemsUnderHostsList_sublist (n : Nat) :
    ∀ l : List XmlElem, sizeOf l ≤ n →
      List.Sublist (itemsUnderHostsList l)
        ((XmlElem.subtreeList l).filter (fun c => c.tag == "ReportItem")) := by
  induction n with
  | zero =>
    intro l hl
    exact absurd hl (by cases l <;> simp)
  | succ n ih =>
    intro l hl
    cases l with
    | nil => exact List.Sublist.refl _
    | cons c cs =>
      cases c with
      | mk t a x cs2 =>
        simp only [List.cons.sizeOf_spec, XmlElem.mk.sizeOf_spec] at hl
        have hszc : sizeOf cs2 ≤ n := by omega
        have hszcs : sizeOf cs ≤ n := by omega
        have htag : (XmlElem.mk t a x cs2).tag = t := rfl
        simp only [itemsUnderHostsList, itemsUnderHosts, XmlElem.subtreeList,
          XmlElem.subtree, List.filter_append, List.filter_cons, htag]
        refine List.Sublist.append ?_ (ih cs hszcs)
        by_cases ht : (t == "ReportHost") = true
        · rw [if_pos ht]
          have hne : (t == "ReportItem") = false := by
        
            have : t = "ReportHost" := by simpa using ht
            subst this
            decide
          rw [hne]
          simp only [Bool.false_eq_true, if_false]
          exact List.Sublist.refl _
        · rw [if_neg ht]
          refine (ih cs2 hszc).trans ?_
          by_cases hti : (t == "ReportItem") = true
          · rw [hti]
            simp only [if_true]
            exact List.sublist_cons_self _ _
          · rw [Bool.eq_false_iff.mpr hti]
            simp only [Bool.false_eq_true, if_false]
            exact List.Sublist.refl _

/-- C1: on a well-formed document (the root is not itself a `ReportHost`
and hosts do not nest), the primary path emits exactly one row per
`ReportItem` nested under a `ReportHost` — the rows are the assembled
(host address, item) pairs in processing order, the items processed are
exactly `itemsUnderHosts root`, which lists them in document traversal
order (a sublist of the document-order `ReportItem` stream), and the row
count equals the item count. -/
theorem C1_one_row_per_item (unescape : String → String) (root : XmlElem)
    (hn : hostsNotNested root = true) (hr : (root.tag == "ReportHost") = false) :
    primaryRows unescape root =
      (codePairs root).map (fun p => assembleRow unescape (nsCm root) p.1 p.2) ∧
    (codePairs root).map Prod.snd = itemsUnderHosts root ∧
    (primaryRows unescape root).length = (itemsUnderHosts root).length ∧
    List.Sublist (itemsUnderHosts root)
      (root.descendants.filter (fun c => c.tag == "ReportItem")) := by
  have h1 : primaryRows unescape root =
      (codePairs root).map (fun p => assembleRow unescape (nsCm root) p.1 p.2) := by
    unfold primaryRows codePairs
    rw [List.map_flatMap]
    simp only [List.map_map]
    rfl
  cases root with
  | mk t a x cs =>
    have htag : (XmlElem.mk t a x cs).tag = t := rfl
    rw [htag] at hr
    have hOk : hostsOkList cs = true := by
      simp only [hostsNotNested, XmlElem.subtree, List.all_cons,
        Bool.and_eq_true] at hn
      exact hn.2
    have hiu : itemsUnderHosts (XmlElem.mk t a x cs) = itemsUnderHostsList cs := by
      unfold itemsUnderHosts
      rw [if_neg (by simp [hr])]
    have h2 : (codePairs (XmlElem.mk t a x cs)).map Prod.snd =
        itemsUnderHosts (XmlElem.mk t a x cs) := by
      have hcode : (codePairs (XmlElem.mk t a x cs)).map Prod.snd =
          codeItemsList cs := by
        unfold codePairs codeItemsList
        rw [List.map_flatMap]
        simp only [List.map_map, Function.comp_def]
        simp only [List.map_id']
        rfl
      rw [hcode, codeItemsList_eq_itemsUnderHostsList (sizeOf cs) cs le_rfl hOk,
        hiu]
    refine ⟨h1, h2, ?_, ?_⟩
    · rw [h1, ← h2]
      simp [List.length_map]
    · rw [hiu]
      exact itemsUnderHostsList_sublist (sizeOf cs) cs le_rfl

/-- C1 witness input: two hosts holding two and one `ReportItem`. -/
def c1Doc : XmlElem :=
  .mk "NessusClientData_v2" [] none
    [.mk "Report" [] none
      [.mk "ReportHost" [("name", "10.0.0.1")] none
        [.mk "ReportItem" [("pluginID", "1")] none [],
         .mk "ReportItem" [("pluginID", "2")] none []],
       .mk "ReportHost" [("name", "10.0.0.2")] none
        [.mk "ReportItem" [("pluginID", "3")] none []]]]

theorem C1_one_row_per_item_witness :
    hostsNotNested c1Doc = true ∧ (c1Doc.tag == "ReportHost") = false ∧
      (primaryRows id c1Doc =
        (codePairs c1Doc).map (fun p => assembleRow id (nsCm c1Doc) p.1 p.2) ∧
      (codePairs c1Doc).map Prod.snd = itemsUnderHosts c1Doc ∧
      (primaryRows id c1Doc).length = (itemsUnderHosts c1Doc).length ∧
      List.Sublist (itemsUnderHosts c1Doc)
        (c1Doc.descendants.filter (fun c => c.tag == "ReportItem"))) :=
  ⟨by decide, by decide, C1_one_row_per_item id c1Doc (by decide) (by decide)⟩
